import Mathlib

/-!
# Anagram Arena — verification of the room/round engine

A shallow embedding of the game engine (`src/server/game-engine.ts`) and the
session room service (`src/server/room-service.ts`) of the two-player anagram
duel, together with proofs about the letter-bank containment check, the round
generator, the submission pipeline and the room state machine.

Conventions of the embedding:
* a JavaScript string that the code computes on (words, letters, names) is its
  list of characters, `Str := List Char`; identifiers that are only compared
  for equality (player ids, reconnect tokens, room codes) stay `String`;
* `Record<string, number>` letter banks are functions `Char → Nat` built with
  `Function.update`, mirroring the incremental `bank[letter] = ...` writes;
* wall-clock instants (`Date.now()`) are `Nat` milliseconds passed explicitly;
* JavaScript floating-point scores are modelled as `ℚ` (the literals and the
  operations of the source carried over exactly);
* `Math.random()` letter draws are an explicit oracle `Nat → Fin 6 → Char`
  giving the six letters drawn at each attempt;
* the Supabase persistence boundary is modelled by having each session
  operation return the room state as persisted: branches of the source that
  return without `saveRoom` leave the stored room unchanged.
-/

namespace Anagram

/-- A JavaScript string viewed as its character list. -/
abbrev Str := List Char

/-- `DifficultyMode` from `src/shared/types.ts`. -/
inductive Mode where
  | easy
  | medium
  | hard
deriving DecidableEq, Repr

/-- `RoomStatus` from `src/shared/types.ts`. -/
inductive RoomStatus where
  | waiting
  | ready
  | playing
  | finished
deriving DecidableEq, Repr

/-- `EndReason` from `src/server/room-service.ts`. -/
inductive EndReason where
  | time_up
  | all_words_found
  | disconnect_timeout
deriving DecidableEq, Repr

/-- The closed error-code set (`SubmitErrorCode` plus the session errors). -/
inductive ErrCode where
  | BAD_CODE
  | NAME_REQUIRED
  | ROOM_NOT_FOUND
  | ROOM_FULL
  | NOT_IN_ROOM
  | HOST_ONLY
  | WAITING_FOR_PLAYERS
  | ROUND_NOT_ACTIVE
  | TOO_SHORT
  | LETTER_MISMATCH
  | INVALID_WORD
  | ALREADY_USED
  | RATE_LIMIT
  | UNKNOWN
deriving DecidableEq, Repr

/-! ## Game engine (`src/server/game-engine.ts`) -/

/-- `VOWELS`. -/
def VOWELS : List Char := ['a', 'e', 'i', 'o', 'u']

/-- `EASY_BLOCKED_RARE`. -/
def EASY_BLOCKED_RARE : List Char := ['q', 'x', 'z', 'j', 'k', 'v']

/-- `EASY_SEMI_RARE`. -/
def EASY_SEMI_RARE : List Char := ['f', 'w', 'y']

/-- `MEDIUM_RARE`. -/
def MEDIUM_RARE : List Char := ['q', 'x', 'z', 'j', 'k']

/-- `FALLBACK_SETS`: hand-picked fallback letter strings per mode. -/
def FALLBACK_SETS : Mode → List Str
  | .easy => ["retain".data, "stared".data, "respin".data, "alters".data, "reason".data, "smiler".data]
  | .medium => ["planet".data, "stream".data, "framed".data, "silent".data, "garden".data, "rescue".data]
  | .hard => ["quartz".data, "jockey".data, "vortex".data, "blowzy".data, "wizard".data, "fuzzyi".data]

/-- The per-mode generation rules (`MODE_RULES`); scores are the source's
floating-point literals carried to `ℚ`. -/
structure ModeRules where
  attempts : Nat
  minScore : ℚ
  maxScore : ℚ
  targetScore : ℚ
  minTotalValid : Nat
deriving Repr

/-- `MODE_RULES`. -/
def MODE_RULES : Mode → ModeRules
  | .easy => { attempts := 1800, minScore := 1.5, maxScore := 3.7, targetScore := 2.6, minTotalValid := 15 }
  | .medium => { attempts := 1400, minScore := 3.5, maxScore := 6.6, targetScore := 5.0, minTotalValid := 12 }
  | .hard => { attempts := 1200, minScore := 5.8, maxScore := 10, targetScore := 7.8, minTotalValid := 8 }

/-- `scoreForWord(length)`: the length → points table. -/
def scoreForWord (length : Nat) : Nat :=
  if length ≤ 3 then 1
  else if length = 4 then 2
  else if length = 5 then 4
  else 7

/-- `buildLetterBank(letters)`: the letter → count record, built by the
incremental `bank[letter] = (bank[letter] ?? 0) + 1` writes; a missing key
reads as 0. -/
def buildLetterBank (letters : Str) : Char → Nat :=
  letters.foldl (fun bank letter => Function.update bank letter (bank letter + 1)) (fun _ => 0)

/-- The `for (const char of word)` loop of `canBuildFromLetters`: take each
character out of the bank, failing when its count is already 0. -/
def canBuildGo (bank : Char → Nat) : Str → Bool
  | [] => true
  | c :: rest =>
    if bank c = 0 then false
    else canBuildGo (Function.update bank c (bank c - 1)) rest

/-- `canBuildFromLetters(word, letters)`. -/
def canBuildFromLetters (word : Str) (letters : Str) : Bool :=
  canBuildGo (buildLetterBank letters) word

/-- The `for (const char of word)` loop of `canBuildWithBank`, threading the
`used` record of per-character counts consumed so far. -/
def canBuildWithBankGo (bank : Char → Nat) (used : Char → Nat) : Str → Bool
  | [] => true
  | c :: rest =>
    if bank c < used c + 1 then false
    else canBuildWithBankGo bank (Function.update used c (used c + 1)) rest

/-- `canBuildWithBank(word, bank)`: containment against a prebuilt bank. -/
def canBuildWithBank (word : Str) (bank : Char → Nat) : Bool :=
  canBuildWithBankGo bank (fun _ => 0) word

/-- `findValidWordsForLetters(words, letters)`: the dictionary words of length
3 .. `letters.length` buildable from the letters (the TS collects them into a
`Set`, which for an already-deduplicated dictionary is the filtered list in
iteration order). -/
def findValidWordsForLetters (words : List Str) (letters : Str) : List Str :=
  let bank := buildLetterBank letters
  words.filter (fun word =>
    decide (3 ≤ word.length) && decide (word.length ≤ letters.length) && canBuildWithBank word bank)

/-- `getMaxLetterRepeat(letters)`: the TS accumulates per-letter counts in a
record and takes the max over its values; taking the max of each position's
count yields the same number. -/
def getMaxLetterRepeat (letters : Str) : Nat :=
  (letters.map (fun letter => letters.count letter)).foldl max 0

/-- `hasAwkwardCluster(letters)`. -/
def hasAwkwardCluster (letters : Str) : Bool :=
  let consonants := (letters.filter (fun c => !(VOWELS.contains c))).length
  if 5 ≤ consonants then true
  else
    let clusterLetters : List Char := ['s', 't', 'r', 'h']
    let clusterCount := (letters.filter (fun c => clusterLetters.contains c)).length
    decide (4 ≤ clusterCount) && decide (4 ≤ consonants)

/-- `passesLetterConstraints(letters, mode)`. -/
def passesLetterConstraints (letters : Str) (mode : Mode) : Bool :=
  let vowelCount := (letters.filter (fun c => VOWELS.contains c)).length
  let maxLetterRepeat := getMaxLetterRepeat letters
  match mode with
  | .easy =>
    if letters.any (fun c => EASY_BLOCKED_RARE.contains c) then false
    else if 1 < (letters.filter (fun c => EASY_SEMI_RARE.contains c)).length then false
    else if vowelCount < 2 then false
    else if !(letters.contains 'a') && !(letters.contains 'e') then false
    else if 2 < maxLetterRepeat then false
    else if hasAwkwardCluster letters then false
    else true
  | .medium =>
    if 1 < (letters.filter (fun c => MEDIUM_RARE.contains c)).length then false
    else if vowelCount < 2 then false
    else if 2 < maxLetterRepeat then false
    else true
  | .hard =>
    -- Hard: still require at least one vowel so rounds are not degenerate.
    decide (1 ≤ vowelCount)

/-- `RoundQualityMetrics` (floating-point fields carried to `ℚ`; the source's
`vowelRatio` field is `vowelRatio'` here). -/
structure RoundQualityMetrics where
  totalValidWords : Nat
  commonWordCount : Nat
  commonThreeFourCount : Nat
  commonFourCount : Nat
  commonFiveCount : Nat
  commonSixCount : Nat
  longestCommonWord : Str
  vowelCount : Nat
  vowelRatio' : ℚ
  rareLetterCount : Nat
  semiRareLetterCount : Nat
  anchorStrength : ℚ
  shortWordDensity : ℚ
  obscurityScore : ℚ
  largestWordFamily : Nat
  maxLetterRepeat : Nat
  difficultyScore : ℚ

/-- `findLargestWordFamily(words)`: largest group of words sharing a 2-letter
prefix or a 2-letter suffix (again, the max over a count record equals the max
over each element's count). -/
def findLargestWordFamily (words : List Str) : Nat :=
  if words.length = 0 then 0
  else
    let eligible := words.filter (fun word => decide (3 ≤ word.length))
    let pres := eligible.map (fun word => word.take 2)
    let sufs := eligible.map (fun word => word.drop (word.length - 2))
    let preMax := (pres.map (fun p => pres.count p)).foldl max 0
    let sufMax := (sufs.map (fun s => sufs.count s)).foldl max 0
    max preMax sufMax

/-- `computeDifficultyScore({...})`. -/
def computeDifficultyScore (rareLetterCount semiRareLetterCount vowelCount commonWordCount shortWordCount : Nat)
    (anchorStrength obscurityScore : ℚ) : ℚ :=
  let rareLetterWeight : ℚ := rareLetterCount * 1.4 + semiRareLetterCount * 0.6
  let lowVowelPenalty : ℚ := if 3 ≤ vowelCount then 0 else if vowelCount = 2 then 0.8 else 2.2
  let commonCoveragePenalty : ℚ := 7 / (max 1 commonWordCount : Nat)
  let shortWordPenalty : ℚ := 5 / (max 1 shortWordCount : Nat)
  let noAnchorPenalty : ℚ := if 0 < anchorStrength then 0 else 1.8
  rareLetterWeight + lowVowelPenalty + commonCoveragePenalty + shortWordPenalty + noAnchorPenalty +
    obscurityScore * 2.2

/-- `buildMetrics(letters, validWords, commonValidWords)`. -/
def buildMetrics (letters : Str) (validWords commonValidWords : List Str) : RoundQualityMetrics :=
  let commonThreeFourCount := (commonValidWords.filter (fun w => decide (w.length ≤ 4))).length
  let commonFourCount := (commonValidWords.filter (fun w => decide (w.length = 4))).length
  let commonFiveCount := (commonValidWords.filter (fun w => decide (w.length = 5))).length
  let commonSixCount := (commonValidWords.filter (fun w => decide (w.length = 6))).length
  let longestCommonWord := commonValidWords.foldl (fun best w => if best.length < w.length then w else best) []
  let vowelCount := (letters.filter (fun c => VOWELS.contains c)).length
  let rareLetterCount := (letters.filter (fun c => EASY_BLOCKED_RARE.contains c)).length
  let semiRareLetterCount := (letters.filter (fun c => EASY_SEMI_RARE.contains c)).length
  let maxLetterRepeat := getMaxLetterRepeat letters
  let anchorStrength : ℚ :=
    if 0 < commonSixCount then 2 else if 0 < commonFiveCount then 1 else if 2 ≤ commonFourCount then 0.6 else 0
  let shortWordDensity : ℚ :=
    if commonValidWords.length = 0 then 0 else (commonThreeFourCount : ℚ) / commonValidWords.length
  let obscurityScore : ℚ :=
    if validWords.length = 0 then 1 else 1 - (commonValidWords.length : ℚ) / validWords.length
  { totalValidWords := validWords.length
    commonWordCount := commonValidWords.length
    commonThreeFourCount := commonThreeFourCount
    commonFourCount := commonFourCount
    commonFiveCount := commonFiveCount
    commonSixCount := commonSixCount
    longestCommonWord := longestCommonWord
    vowelCount := vowelCount
    vowelRatio' := (vowelCount : ℚ) / letters.length
    rareLetterCount := rareLetterCount
    semiRareLetterCount := semiRareLetterCount
    anchorStrength := anchorStrength
    shortWordDensity := shortWordDensity
    obscurityScore := obscurityScore
    largestWordFamily := findLargestWordFamily commonValidWords
    maxLetterRepeat := maxLetterRepeat
    difficultyScore :=
      computeDifficultyScore rareLetterCount semiRareLetterCount vowelCount commonValidWords.length
        commonThreeFourCount anchorStrength obscurityScore }

/-- `passesWordConstraints(metrics, mode)`. -/
def passesWordConstraints (metrics : RoundQualityMetrics) (mode : Mode) : Bool :=
  match mode with
  | .easy =>
    if metrics.commonWordCount < 15 then false
    else if metrics.commonThreeFourCount < 8 then false
    else if metrics.commonFiveCount < 1 then false
    else if metrics.largestWordFamily < 3 then false
    else true
  | .medium =>
    if metrics.totalValidWords < 12 then false
    else if metrics.commonThreeFourCount < 5 then false
    else if !(decide (1 ≤ metrics.commonFiveCount) || decide (2 ≤ metrics.commonFourCount)) then false
    else true
  | .hard => decide (8 ≤ metrics.totalValidWords)

/-- One candidate round of the generator. -/
structure CandidateRound where
  letters : Str
  validWords : List Str
  commonValidWords : List Str
  metrics : RoundQualityMetrics

/-- `compareCandidateQuality(a, b, mode)` as a rational; the source compares
the result against 0. -/
def compareCandidateQuality (a b : CandidateRound) (mode : Mode) : ℚ :=
  let target := (MODE_RULES mode).targetScore
  let aFitness := |a.metrics.difficultyScore - target| - a.metrics.commonWordCount * 0.03 -
    a.metrics.commonThreeFourCount * 0.02
  let bFitness := |b.metrics.difficultyScore - target| - b.metrics.commonWordCount * 0.03 -
    b.metrics.commonThreeFourCount * 0.02
  aFitness - bFitness

/-- The result record of `generateRound`. -/
structure GenResult where
  letters : Str
  validWords : List Str
  metrics : RoundQualityMetrics

/-- The `for (attempt ...)` loop of `generateRound`: `remaining` is the fuel
left out of `MODE_RULES[mode].attempts`; `draw attempt` gives the six letters
of `pickWeightedLetter()` for that attempt.  `Sum.inr` is the early return of
a close-enough candidate; `Sum.inl` falls out of the loop with the best
candidate so far. -/
def genLoop (allWordList commonWords : List Str) (mode : Mode) (draw : Nat → Fin 6 → Char) :
    Nat → Nat → Option CandidateRound → Option CandidateRound ⊕ CandidateRound
  | _, 0, best => .inl best
  | attempt, remaining + 1, best =>
    let letters := List.ofFn (fun i => draw attempt i)
    if !passesLetterConstraints letters mode then
      genLoop allWordList commonWords mode draw (attempt + 1) remaining best
    else
      let validWords := findValidWordsForLetters allWordList letters
      if validWords.length < (MODE_RULES mode).minTotalValid then
        genLoop allWordList commonWords mode draw (attempt + 1) remaining best
      else
        let commonValidWords := validWords.filter (fun word => commonWords.contains word)
        let metrics := buildMetrics letters validWords commonValidWords
        if !passesWordConstraints metrics mode then
          genLoop allWordList commonWords mode draw (attempt + 1) remaining best
        else if metrics.difficultyScore < (MODE_RULES mode).minScore ∨
            (MODE_RULES mode).maxScore < metrics.difficultyScore then
          genLoop allWordList commonWords mode draw (attempt + 1) remaining best
        else
          let candidate : CandidateRound :=
            { letters := letters, validWords := validWords, commonValidWords := commonValidWords,
              metrics := metrics }
          -- `if (!bestCandidate || compareCandidateQuality(candidate, bestCandidate, mode) < 0)`
          let takeIt : Bool := match best with
            | none => true
            | some b => decide (compareCandidateQuality candidate b mode < 0)
          if takeIt then
            if |candidate.metrics.difficultyScore - (MODE_RULES mode).targetScore| ≤ 0.2 then
              .inr candidate
            else
              genLoop allWordList commonWords mode draw (attempt + 1) remaining (some candidate)
          else
            genLoop allWordList commonWords mode draw (attempt + 1) remaining best

/-- The fallback loop of `generateRound` over `FALLBACK_SETS[mode]`. -/
def genFallbacks (allWordList commonWords : List Str) (mode : Mode) : List Str → Option GenResult
  | [] => none
  | fallback :: rest =>
    let letters := fallback.take 6
    let validWords := findValidWordsForLetters allWordList letters
    let commonValidWords := validWords.filter (fun word => commonWords.contains word)
    let metrics := buildMetrics letters validWords commonValidWords
    if passesWordConstraints metrics mode && passesLetterConstraints letters mode then
      some { letters := letters, validWords := validWords, metrics := metrics }
    else
      genFallbacks allWordList commonWords mode rest

/-- The last-resort `"planet"` tail of `generateRound`: no further validation. -/
def planetFallback (allWordList commonWords : List Str) : GenResult :=
  let letters := "planet".data
  let validWords := findValidWordsForLetters allWordList letters
  let commonValidWords := validWords.filter (fun word => commonWords.contains word)
  { letters := letters, validWords := validWords,
    metrics := buildMetrics letters validWords commonValidWords }

/-- `generateRound(allWords, commonWords, mode)` with the random letter draws
made explicit as the oracle `draw`. -/
def generateRound (allWords commonWords : List Str) (mode : Mode) (draw : Nat → Fin 6 → Char) :
    GenResult :=
  match genLoop allWords commonWords mode draw 0 (MODE_RULES mode).attempts none with
  | .inr candidate =>
    { letters := candidate.letters, validWords := candidate.validWords, metrics := candidate.metrics }
  | .inl (some bestCandidate) =>
    { letters := bestCandidate.letters, validWords := bestCandidate.validWords,
      metrics := bestCandidate.metrics }
  | .inl none =>
    match genFallbacks allWords commonWords mode (FALLBACK_SETS mode) with
    | some result => result
    | none => planetFallback allWords commonWords

/-! ## Room service (`src/server/room-service.ts`)

The session operations below embed `room-service.ts` from the point where the
room row has been fetched (`getRoomByCode`); code normalisation, the Supabase
client and UUID generation are boundary concerns, with fresh ids/tokens passed
in as parameters.  Each operation returns the room state **as persisted**:
source branches that return without `saveRoom` leave the stored room unchanged. -/

/-- `ROUND_DURATION_SECONDS`. -/
def ROUND_DURATION_SECONDS : Nat := 60

/-- `RATE_WINDOW_MS`. -/
def RATE_WINDOW_MS : Nat := 2000

/-- `RATE_LIMIT_COUNT`. -/
def RATE_LIMIT_COUNT : Nat := 5

/-- `WordEntry` from `src/shared/types.ts`. -/
structure WordEntry where
  text : Str
  points : Nat
  timestamp : Nat
deriving DecidableEq, Repr

/-- `PlayerInternal`. -/
structure Player where
  id : String
  reconnectToken : String
  name : Str
  connected : Bool
  score : Nat
  words : List WordEntry
  usedWords : List Str
  longestWord : Str
  submitTimestamps : List Nat
deriving DecidableEq, Repr

/-- `RoomInternal`. -/
structure Room where
  code : String
  status : RoomStatus
  mode : Mode
  hostPlayerId : String
  players : List Player
  letters : Str
  startTime : Option Nat
  durationSec : Nat
  allValidWords : List Str
  foundGlobalWords : List Str
  disconnectGraceEndsAt : Option Nat
  lastEndReason : Option EndReason
  createdAt : Nat
  updatedAt : Nat
deriving DecidableEq, Repr

/-- `word.trim()`: strip leading and trailing whitespace. -/
def trimStr (s : Str) : Str :=
  ((s.dropWhile Char.isWhitespace).reverse.dropWhile Char.isWhitespace).reverse

/-- `rawWord.trim().toLowerCase()`. -/
def normalizeWord (raw : Str) : Str :=
  (trimStr raw).map Char.toLower

/-- `sanitizeName(input)`: `input.trim().slice(0, 24)`. -/
def sanitizeName (input : Str) : Str :=
  (trimStr input).take 24

/-- `createPlayer(name)`; the `randomUUID()` id and token are parameters. -/
def createPlayer (name : Str) (id reconnectToken : String) : Player :=
  { id := id
    reconnectToken := reconnectToken
    name := name
    connected := true
    score := 0
    words := []
    usedWords := []
    longestWord := []
    submitTimestamps := [] }

/-- Mutating the first player matching `pred` in place, as the TS does by
mutating the object returned by `players.find(...)`. -/
def updateFirstBy (pred : Player → Bool) (f : Player → Player) : List Player → List Player
  | [] => []
  | p :: rest => if pred p then f p :: rest else p :: updateFirstBy pred f rest

/-- `endRound(room, reason)`. -/
def endRound (room : Room) (reason : EndReason) (now : Nat) : Room :=
  { room with
    status := .finished
    lastEndReason := some reason
    disconnectGraceEndsAt := none
    updatedAt := now }

/-- `hasRoundExpired(room)`. -/
def hasRoundExpired (room : Room) (now : Nat) : Bool :=
  match room.startTime with
  | none => false
  | some startTime => decide (room.status = .playing) && decide (startTime + room.durationSec * 1000 ≤ now)

/-- The `foundGlobalWords` update of a successful submission:
`if (!room.foundGlobalWords.includes(word)) push(word)`. -/
def addFound (found : List Str) (word : Str) : List Str :=
  if found.contains word then found else found ++ [word]

/-- Lexicographic (code-point) order on words; for the lowercase ASCII words
of this game this is exactly the TS `a.localeCompare(b)` order. -/
def lexLt : Str → Str → Bool
  | [], [] => false
  | [], _ :: _ => true
  | _ :: _, [] => false
  | a :: as, b :: bs => if a < b then true else if b < a then false else lexLt as bs

/-- Insert into an ascending list (helper for `sortWords`). -/
def insertSorted (w : Str) : List Str → List Str
  | [] => [w]
  | x :: xs => if lexLt x w then x :: insertSorted w xs else w :: x :: xs

/-- `[...words].sort((a, b) => a.localeCompare(b))`: an ascending sort of a
copy of the word list. -/
def sortWords (l : List Str) : List Str :=
  l.foldr insertSorted []

/-- The `word:result` payload (`wordPayload` + the `allValidWords`/`endReason`
fields added on round-ending paths): `viewStatus` is the status of the room
snapshot included in the payload. -/
structure WordResult where
  ok : Bool
  word : Str
  points : Option Nat
  errorCode : Option ErrCode
  viewStatus : RoomStatus
  exposedValidWords : Option (List Str)
  endReason : Option EndReason
deriving DecidableEq, Repr

/-- `submitWordSession(code, playerId, word)` from the point where the room is
loaded.  Returns the persisted room (branches without `saveRoom` leave it
unchanged) and either a session error or the `word:result` payload. -/
def submitWord (room : Room) (playerId : String) (rawWord : Str) (now : Nat) :
    Room × Except ErrCode WordResult :=
  match room.players.find? (fun p => p.id = playerId) with
  | none => (room, .error .NOT_IN_ROOM)
  | some player =>
    if room.status ≠ .playing then
      (room, .ok { ok := false, word := rawWord.map Char.toLower, points := none,
                   errorCode := some .ROUND_NOT_ACTIVE, viewStatus := room.status,
                   exposedValidWords := none, endReason := none })
    else if hasRoundExpired room now then
      let room1 := endRound room .time_up now
      (room1, .ok { ok := false, word := rawWord.map Char.toLower, points := none,
                    errorCode := some .ROUND_NOT_ACTIVE, viewStatus := room1.status,
                    exposedValidWords := some (sortWords room1.allValidWords),
                    endReason := some ((room1.lastEndReason).getD .time_up) })
    else
      let recent := player.submitTimestamps.filter (fun t => now - t ≤ RATE_WINDOW_MS)
      if RATE_LIMIT_COUNT ≤ recent.length then
        -- rejected before the attempt is pushed; this branch does not save the room
        (room, .ok { ok := false, word := rawWord.map Char.toLower, points := none,
                     errorCode := some .RATE_LIMIT, viewStatus := room.status,
                     exposedValidWords := none, endReason := none })
      else
        let player1 := { player with submitTimestamps := recent ++ [now] }
        let word := normalizeWord rawWord
        if word.length < 3 then
          (room, .ok { ok := false, word := word, points := none, errorCode := some .TOO_SHORT,
                       viewStatus := room.status, exposedValidWords := none, endReason := none })
        else if !canBuildFromLetters word room.letters then
          (room, .ok { ok := false, word := word, points := none, errorCode := some .LETTER_MISMATCH,
                       viewStatus := room.status, exposedValidWords := none, endReason := none })
        else if !room.allValidWords.contains word then
          (room, .ok { ok := false, word := word, points := none, errorCode := some .INVALID_WORD,
                       viewStatus := room.status, exposedValidWords := none, endReason := none })
        else if player1.usedWords.contains word then
          (room, .ok { ok := false, word := word, points := none, errorCode := some .ALREADY_USED,
                       viewStatus := room.status, exposedValidWords := none, endReason := none })
        else
          let points := scoreForWord word.length
          let entry : WordEntry := { text := word, points := points, timestamp := now }
          let player2 := { player1 with
            words := player1.words ++ [entry]
            usedWords := player1.usedWords ++ [word]
            score := player1.score + points
            longestWord := if player1.longestWord.length < word.length then word else player1.longestWord }
          let room1 := { room with
            players := updateFirstBy (fun p => p.id = playerId) (fun _ => player2) room.players
            foundGlobalWords := addFound room.foundGlobalWords word
            updatedAt := now }
          let room2 :=
            if 0 < room1.allValidWords.length ∧ room1.allValidWords.length ≤ room1.foundGlobalWords.length then
              endRound room1 .all_words_found now
            else room1
          (room2, .ok { ok := true, word := word, points := some points, errorCode := none,
                        viewStatus := room2.status,
                        exposedValidWords :=
                          if room2.lastEndReason.isSome then some (sortWords room2.allValidWords) else none,
                        endReason := room2.lastEndReason })

/-- The `room:state` view assembled by `getRoomStateSession`. -/
structure StateView where
  status : RoomStatus
  youId : String
  allValidWords : Option (List Str)
  endReason : Option EndReason
deriving DecidableEq, Repr

/-- `getRoomStateSession(code, playerId, reconnectToken)` from the point where
the room is loaded: lazily forces the `time_up` transition before building the
view. -/
def getRoomState (room : Room) (playerId : String) (reconnectToken : Option String) (now : Nat) :
    Room × Except ErrCode StateView :=
  if playerId = "" then (room, .error .NOT_IN_ROOM)
  else
    let you? :=
      match room.players.find? (fun p => p.id = playerId) with
      | some p => some p
      | none => reconnectToken.bind (fun token => room.players.find? (fun p => p.reconnectToken = token))
    match you? with
    | none => (room, .error .NOT_IN_ROOM)
    | some you =>
      let room1 :=
        if room.status = .playing ∧ hasRoundExpired room now then endRound room .time_up now else room
      let view : StateView :=
        { status := room1.status
          youId := you.id
          allValidWords :=
            if room1.status = .finished then some (sortWords room1.allValidWords) else none
          endReason :=
            if room1.status = .finished then some ((room1.lastEndReason).getD .time_up) else none }
      (room1, .ok view)

/-- `joinRoomSession(code, name, reconnectToken)` from the point where the room
is loaded; `newId`/`newToken` are the `randomUUID()` values used for a fresh
player.  Returns the persisted room and the `you` player of the payload. -/
def joinRoom (room : Room) (rawName : Str) (reconnectToken : Option String)
    (newId newToken : String) (now : Nat) : Room × Except ErrCode Player :=
  let name := sanitizeName rawName
  if name = [] then (room, .error .NAME_REQUIRED)
  else
    let finish := fun (players : List Player) (you : Player) =>
      let room1 := { room with players := players, updatedAt := now }
      let room2 :=
        if room1.status ≠ RoomStatus.playing ∧ room1.status ≠ RoomStatus.finished then
          { room1 with status :=
              if room1.players.length = 2 ∧ room1.players.all (fun p => p.connected) then .ready
              else .waiting }
        else room1
      (room2, Except.ok you)
    match reconnectToken with
    | some token =>
      match room.players.find? (fun p => p.reconnectToken = token) with
      | some reconnecting =>
        let updated := { reconnecting with connected := true, name := name }
        finish (updateFirstBy (fun p => p.reconnectToken = token)
          (fun p => { p with connected := true, name := name }) room.players) updated
      | none =>
        if 2 ≤ room.players.length then (room, .error .ROOM_FULL)
        else
          let player := createPlayer name newId newToken
          finish (room.players ++ [player]) player
    | none =>
      if 2 ≤ room.players.length then (room, .error .ROOM_FULL)
      else
        let player := createPlayer name newId newToken
        finish (room.players ++ [player]) player

/-- `startRoundSession(code, playerId)` from the point where the room is
loaded; the dictionary, common-word list and letter-draw oracle feed
`generateRound`. -/
def startRound (dictionary commonDictionary : List Str) (draw : Nat → Fin 6 → Char)
    (room : Room) (playerId : String) (now : Nat) : Room × Except ErrCode Unit :=
  match room.players.find? (fun p => p.id = playerId) with
  | none => (room, .error .NOT_IN_ROOM)
  | some player =>
    if player.id ≠ room.hostPlayerId then (room, .error .HOST_ONLY)
    else if room.players.length < 2 ∨ room.players.any (fun p => !p.connected) then
      (room, .error .WAITING_FOR_PLAYERS)
    else
      let generated := generateRound dictionary commonDictionary room.mode draw
      let room1 := { room with
        letters := generated.letters
        allValidWords := generated.validWords
        foundGlobalWords := []
        status := .playing
        startTime := some now
        durationSec := ROUND_DURATION_SECONDS
        disconnectGraceEndsAt := none
        lastEndReason := none
        updatedAt := now
        players := room.players.map (fun p => { p with
          score := 0, words := [], usedWords := [], longestWord := [], submitTimestamps := [] }) }
      (room1, .ok ())

/-- `leaveRoomSession(code, playerId)` from the point where the room is loaded.
Returns `none` when the room row is deleted (all players disconnected),
otherwise the persisted room. -/
def leaveRoom (room : Room) (playerId : String) (now : Nat) : Option Room :=
  match room.players.find? (fun p => p.id = playerId) with
  | none => some room
  | some player =>
    let players1 := updateFirstBy (fun p => p.id = playerId) (fun p => { p with connected := false })
      room.players
    let room1 := { room with players := players1, updatedAt := now }
    let room2 :=
      if room1.hostPlayerId = player.id then
        match room1.players.find? (fun p => p.connected && p.id ≠ playerId) with
        | some nextHost => { room1 with hostPlayerId := nextHost.id }
        | none => room1
      else room1
    let room3 :=
      if room2.status ≠ RoomStatus.finished ∧ room2.status ≠ RoomStatus.playing then
        { room2 with status :=
            if room2.players.length = 2 ∧ room2.players.all (fun p => p.connected) then .ready
            else .waiting }
      else room2
    if room3.players.all (fun p => !p.connected) then none
    else some room3

/-- `createRoomSession(name, mode)`: the room object inserted for a fresh
code (code, player id and token are the boundary-generated values). -/
def createRoom (rawName : Str) (mode : Mode) (code playerId token : String) (now : Nat) : Room :=
  { code := code
    status := .waiting
    mode := mode
    hostPlayerId := playerId
    players := [createPlayer (sanitizeName rawName) playerId token]
    letters := []
    startTime := none
    durationSec := ROUND_DURATION_SECONDS
    allValidWords := []
    foundGlobalWords := []
    disconnectGraceEndsAt := none
    lastEndReason := none
    createdAt := now
    updatedAt := now }

/-- The rooms reachable through the session operations (create, join, start,
submit, leave), starting from `createRoomSession` (which requires a non-empty
sanitised name). -/
inductive Reachable : Room → Prop
  | create (rawName : Str) (mode : Mode) (code playerId token : String) (now : Nat)
      (hname : sanitizeName rawName ≠ []) :
      Reachable (createRoom rawName mode code playerId token now)
  | join (room : Room) (rawName : Str) (reconnectToken : Option String) (newId newToken : String)
      (now : Nat) (room' : Room) (you : Player) (h : Reachable room)
      (hop : joinRoom room rawName reconnectToken newId newToken now = (room', .ok you)) :
      Reachable room'
  | start (dictionary commonDictionary : List Str) (draw : Nat → Fin 6 → Char) (room : Room)
      (playerId : String) (now : Nat) (room' : Room) (h : Reachable room)
      (hop : startRound dictionary commonDictionary draw room playerId now = (room', .ok ())) :
      Reachable room'
  | submit (room : Room) (playerId : String) (rawWord : Str) (now : Nat) (h : Reachable room) :
      Reachable (submitWord room playerId rawWord now).1
  | leave (room : Room) (playerId : String) (now : Nat) (room' : Room) (h : Reachable room)
      (hop : leaveRoom room playerId now = some room') :
      Reachable room'

/-- The mutated player of a successful submission (the timestamp push plus the
success-path pushes of `submitWordSession`), used to characterise `submitWord`. -/
def successPlayer (p : Player) (word : Str) (now : Nat) : Player :=
  let recent := p.submitTimestamps.filter (fun t => now - t ≤ RATE_WINDOW_MS)
  let points := scoreForWord word.length
  { p with
    submitTimestamps := recent ++ [now]
    words := p.words ++ [{ text := word, points := points, timestamp := now }]
    usedWords := p.usedWords ++ [word]
    score := p.score + points
    longestWord := if p.longestWord.length < word.length then word else p.longestWord }

/-- The room persisted by a successful submission: player and
`foundGlobalWords` updated, then the `all_words_found` early termination when
the solution set is covered. -/
def successRoom (room : Room) (pid : String) (word : Str) (now : Nat) (p : Player) : Room :=
  let room1 := { room with
    players := updateFirstBy (fun q => q.id = pid) (fun _ => successPlayer p word now) room.players
    foundGlobalWords := addFound room.foundGlobalWords word
    updatedAt := now }
  if 0 < room1.allValidWords.length ∧ room1.allValidWords.length ≤ room1.foundGlobalWords.length then
    endRound room1 .all_words_found now
  else room1

/-- The error code visible in a submission outcome (session error or
`word:result` error code). -/
def submitErr (out : Except ErrCode WordResult) : Option ErrCode :=
  match out with
  | .error e => some e
  | .ok res => res.errorCode

/-- The well-formedness carried by every candidate the generator's attempt
loop can return: solution set computed from its letters, six letters, and the
mode's minimum word count. -/
def CandidateOk (allWordList : List Str) (mode : Mode) (c : CandidateRound) : Prop :=
  c.validWords = findValidWordsForLetters allWordList c.letters ∧
    c.letters.length = 6 ∧ (MODE_RULES mode).minTotalValid ≤ c.validWords.length

/-- The per-player bookkeeping invariant: the score is the sum of the points
of the scored words, no word text repeats, and `usedWords` mirrors the texts
of `words`. -/
def playerInv (p : Player) : Prop :=
  p.score = (p.words.map (fun e => e.points)).sum ∧
    (p.words.map (fun e => e.text)).Nodup ∧
    p.usedWords = p.words.map (fun e => e.text)

/-- The room-level invariant: every player satisfies `playerInv`. -/
def roomInv (room : Room) : Prop :=
  ∀ p ∈ room.players, playerInv p

/-! ## Concrete fixtures (used by witnesses and counterexamples) -/

/-- A connected player `p1`/`t1` with a fresh round state. -/
def pAlice : Player := createPlayer "alice".data "p1" "t1"

/-- A connected player `p2`/`t2` with a fresh round state. -/
def pBob : Player := createPlayer "bob".data "p2" "t2"

/-- A two-player room mid-round: letters `catdog`, solution set `{cat, dog}`,
round started at instant 0. -/
def roomPlaying : Room :=
  { code := "123456"
    status := .playing
    mode := .medium
    hostPlayerId := "p1"
    players := [pAlice, pBob]
    letters := "catdog".data
    startTime := some 0
    durationSec := 60
    allValidWords := ["cat".data, "dog".data]
    foundGlobalWords := []
    disconnectGraceEndsAt := none
    lastEndReason := none
    createdAt := 0
    updatedAt := 0 }

/-- `roomPlaying` with a single-word solution set, one submission away from
`all_words_found`. -/
def roomOneWord : Room := { roomPlaying with allValidWords := ["cat".data] }

/-! ## Theorems -/

/-- The incremental letter-bank fold reads back as occurrence counting. -/
theorem bank_foldl_apply (l : Str) (acc : Char → Nat) (c : Char) :
    (l.foldl (fun bank letter => Function.update bank letter (bank letter + 1)) acc) c
      = acc c + l.count c := by
  induction l generalizing acc with
  | nil => simp
  | cons a as ih =>
    rw [List.foldl_cons, ih]
    by_cases h : c = a
    · simp [Function.update_apply, List.count_cons, h]
      omega
    · simp [Function.update_apply, List.count_cons, h]

/-- `buildLetterBank letters` is the occurrence count in `letters`. -/
theorem buildLetterBank_apply (letters : Str) (c : Char) :
    buildLetterBank letters c = letters.count c := by
  unfold buildLetterBank
  rw [bank_foldl_apply]
  simp

/-- The decrementing loop of `canBuildFromLetters` succeeds exactly when every
character fits in the bank. -/
theorem canBuildGo_eq_true_iff (w : Str) (bank : Char → Nat) :
    canBuildGo bank w = true ↔ ∀ c, w.count c ≤ bank c := by
  induction w generalizing bank with
  | nil => simp [canBuildGo]
  | cons a as ih =>
    simp only [canBuildGo]
    by_cases h : bank a = 0
    · rw [if_pos h]
      simp only [Bool.false_eq_true, false_iff, not_forall]
      exact ⟨a, by simp [List.count_cons, h]⟩
    · rw [if_neg h, ih]
      constructor
      · intro h2 c
        have hc := h2 c
        simp only [Function.update_apply] at hc
        by_cases hca : c = a
        · subst hca
          rw [if_pos rfl] at hc
          simp [List.count_cons]
          omega
        · rw [if_neg hca] at hc
          simpa [List.count_cons, hca] using hc
      · intro h2 c
        have hc := h2 c
        simp only [Function.update_apply]
        by_cases hca : c = a
        · subst hca
          rw [if_pos rfl]
          simp [List.count_cons] at hc
          omega
        · rw [if_neg hca]
          simpa [List.count_cons, hca] using hc

/-- The `used`-threading loop of `canBuildWithBank`: success means every
character occurring in the word fits, on top of what is already used. -/
theorem canBuildWithBankGo_eq_true_iff (w : Str) (bank used : Char → Nat) :
    canBuildWithBankGo bank used w = true ↔ ∀ c ∈ w, used c + w.count c ≤ bank c := by
  induction w generalizing used with
  | nil => simp [canBuildWithBankGo]
  | cons a as ih =>
    simp only [canBuildWithBankGo]
    by_cases h : bank a < used a + 1
    · rw [if_pos h]
      simp only [Bool.false_eq_true, false_iff, not_forall]
      refine ⟨a, ?_⟩
      simp [List.count_cons]
      omega
    · rw [if_neg h, ih]
      constructor
      · intro h2 c hc
        by_cases hca : c = a
        · subst hca
          by_cases hmem : c ∈ as
          · have := h2 c hmem
            simp [Function.update_apply] at this
            simp [List.count_cons]
            omega
          · have hz : as.count c = 0 := List.count_eq_zero.mpr hmem
            simp [List.count_cons, hz]
            omega
        · have hc' : c ∈ as := by
            rcases List.mem_cons.mp hc with rfl | hmem
            · exact absurd rfl hca
            · exact hmem
          have := h2 c hc'
          simp [Function.update_apply, hca] at this
          simp [List.count_cons, hca]
          omega
      · intro h2 c hc
        by_cases hca : c = a
        · subst hca
          have := h2 c (List.mem_cons_self _ _)
          simp [List.count_cons] at this
          simp [Function.update_apply]
          omega
        · have := h2 c (List.mem_cons_of_mem _ hc)
          simp [List.count_cons, hca] at this
          simp [Function.update_apply, hca]
          omega

/-- `canBuildWithBank` succeeds exactly when every character count of the word
fits in the bank. -/
theorem canBuildWithBank_eq_true_iff (w : Str) (bank : Char → Nat) :
    canBuildWithBank w bank = true ↔ ∀ c, w.count c ≤ bank c := by
  unfold canBuildWithBank
  rw [canBuildWithBankGo_eq_true_iff]
  constructor
  · intro h c
    by_cases hc : c ∈ w
    · simpa using h c hc
    · simp [List.count_eq_zero.mpr hc]
  · intro h c _
    simpa using h c

/-- C1: for every word `w` and letter list `L`, `canBuildFromLetters w L` is
true iff every character occurs in `w` at most as often as in `L`, and the
same holds for `canBuildWithBank` applied to the bank built from `L`. -/
theorem c1_containment_correct (w L : Str) :
    (canBuildFromLetters w L = true ↔ ∀ c, w.count c ≤ L.count c) ∧
    (canBuildWithBank w (buildLetterBank L) = true ↔ ∀ c, w.count c ≤ L.count c) := by
  constructor
  · unfold canBuildFromLetters
    rw [canBuildGo_eq_true_iff]
    constructor <;> intro h c <;> have := h c <;>
      simpa [buildLetterBank_apply] using this
  · rw [canBuildWithBank_eq_true_iff]
    constructor <;> intro h c <;> have := h c <;>
      simpa [buildLetterBank_apply] using this

/-- Membership in `findValidWordsForLetters`: a dictionary word of length 3 up
to the number of letters whose character counts fit in the letter multiset. -/
theorem mem_findValidWordsForLetters (words : List Str) (letters : Str) (w : Str) :
    w ∈ findValidWordsForLetters words letters ↔
      w ∈ words ∧ 3 ≤ w.length ∧ w.length ≤ letters.length ∧
        ∀ c, w.count c ≤ letters.count c := by
  unfold findValidWordsForLetters
  simp only [List.mem_filter, Bool.and_eq_true, decide_eq_true_eq]
  rw [canBuildWithBank_eq_true_iff]
  constructor
  · rintro ⟨hmem, ⟨h3, hlen⟩, hcount⟩
    exact ⟨hmem, h3, hlen, fun c => by simpa [buildLetterBank_apply] using hcount c⟩
  · rintro ⟨hmem, h3, hlen, hcount⟩
    exact ⟨hmem, ⟨h3, hlen⟩, fun c => by simpa [buildLetterBank_apply] using hcount c⟩

/-- Every candidate produced by the attempt loop — by early exit or as the
best survivor — is well-formed. -/
theorem genLoop_ok (allWordList commonWords : List Str) (mode : Mode) (draw : Nat → Fin 6 → Char) :
    ∀ (remaining attempt : Nat) (best : Option CandidateRound),
      (∀ c, best = some c → CandidateOk allWordList mode c) →
      (∀ c, genLoop allWordList commonWords mode draw attempt remaining best = .inr c →
        CandidateOk allWordList mode c) ∧
      (∀ c, genLoop allWordList commonWords mode draw attempt remaining best = .inl (some c) →
        CandidateOk allWordList mode c) := by
  intro remaining
  induction remaining with
  | zero =>
    intro attempt best hbest
    constructor
    · intro c hc
      simp only [genLoop] at hc
      simp at hc
    · intro c hc
      simp only [genLoop] at hc
      cases hc
      exact hbest c rfl
  | succ r ih =>
    intro attempt best hbest
    simp only [genLoop]
    split
    · exact ih (attempt + 1) best hbest
    · split
      · exact ih (attempt + 1) best hbest
      · split
        · exact ih (attempt + 1) best hbest
        · split
          · exact ih (attempt + 1) best hbest
          · rename_i hletters hsize hword hscore
            have hok : CandidateOk allWordList mode
                { letters := List.ofFn (fun i => draw attempt i),
                  validWords := findValidWordsForLetters allWordList (List.ofFn (fun i => draw attempt i)),
                  commonValidWords := (findValidWordsForLetters allWordList
                    (List.ofFn (fun i => draw attempt i))).filter (fun word => commonWords.contains word),
                  metrics := buildMetrics (List.ofFn (fun i => draw attempt i))
                    (findValidWordsForLetters allWordList (List.ofFn (fun i => draw attempt i)))
                    ((findValidWordsForLetters allWordList
                      (List.ofFn (fun i => draw attempt i))).filter (fun word => commonWords.contains word)) } := by
              unfold CandidateOk
              refine ⟨rfl, ?_, ?_⟩
              · simp
              · simpa using Nat.le_of_not_lt hsize
            split
            · split
              · constructor
                · intro c hc
                  cases hc
                  exact hok
                · intro c hc
                  cases hc
              · exact ih (attempt + 1) _ (fun c hc => by cases hc; exact hok)
            · exact ih (attempt + 1) best hbest

/-- Every result of the per-mode fallback loop is well-formed. -/
theorem genFallbacks_ok (allWordList commonWords : List Str) (mode : Mode) :
    ∀ (fallbacks : List Str), (∀ fb ∈ fallbacks, (fb.take 6).length = 6) →
      ∀ r, genFallbacks allWordList commonWords mode fallbacks = some r →
        r.validWords = findValidWordsForLetters allWordList r.letters ∧
          r.letters.length = 6 ∧ (MODE_RULES mode).minTotalValid ≤ r.validWords.length := by
  intro fallbacks
  induction fallbacks with
  | nil => intro _ r hr; cases hr
  | cons fb rest ih =>
    intro hlen r hr
    simp only [genFallbacks] at hr
    split at hr
    · rename_i hpass
      cases hr
      have hwc : passesWordConstraints
          (buildMetrics (fb.take 6) (findValidWordsForLetters allWordList (fb.take 6))
            ((findValidWordsForLetters allWordList (fb.take 6)).filter
              (fun word => commonWords.contains word))) mode = true :=
        (Bool.and_eq_true _ _).mp hpass |>.1
      refine ⟨rfl, hlen fb (List.mem_cons_self _ _), ?_⟩
      have hfilter : ((findValidWordsForLetters allWordList (fb.take 6)).filter
          (fun word => commonWords.contains word)).length ≤
          (findValidWordsForLetters allWordList (fb.take 6)).length :=
        List.length_filter_le _ _
      dsimp only
      cases mode with
      | easy =>
        simp only [passesWordConstraints, buildMetrics] at hwc
        have hmin : (MODE_RULES Mode.easy).minTotalValid = 15 := rfl
        split at hwc
        · cases hwc
        · omega
      | medium =>
        simp only [passesWordConstraints, buildMetrics] at hwc
        have hmin : (MODE_RULES Mode.medium).minTotalValid = 12 := rfl
        split at hwc
        · cases hwc
        · omega
      | hard =>
        simp only [passesWordConstraints, buildMetrics, decide_eq_true_eq] at hwc
        have hmin : (MODE_RULES Mode.hard).minTotalValid = 8 := rfl
        omega
    · exact ih (fun f hf => hlen f (List.mem_cons_of_mem _ hf)) r hr

/-- On every return path of `generateRound` the solution set is computed from
the returned letters, there are six letters, and — except for the last-resort
`"planet"` fallback — the mode's minimum word count holds. -/
theorem generateRound_paths (dict common : List Str) (mode : Mode) (draw : Nat → Fin 6 → Char) :
    (generateRound dict common mode draw).validWords =
        findValidWordsForLetters dict (generateRound dict common mode draw).letters ∧
      (generateRound dict common mode draw).letters.length = 6 ∧
      ((MODE_RULES mode).minTotalValid ≤ (generateRound dict common mode draw).validWords.length ∨
        (generateRound dict common mode draw).letters = "planet".data) := by
  unfold generateRound
  cases hloop : genLoop dict common mode draw 0 (MODE_RULES mode).attempts none with
  | inr c =>
    obtain ⟨h1, h2, h3⟩ :=
      (genLoop_ok dict common mode draw (MODE_RULES mode).attempts 0 none (fun _ h => by cases h)).1
        c hloop
    exact ⟨h1, h2, .inl h3⟩
  | inl best =>
    cases best with
    | some c =>
      obtain ⟨h1, h2, h3⟩ :=
        (genLoop_ok dict common mode draw (MODE_RULES mode).attempts 0 none (fun _ h => by cases h)).2
          c hloop
      exact ⟨h1, h2, .inl h3⟩
    | none =>
      cases hfb : genFallbacks dict common mode (FALLBACK_SETS mode) with
      | some r =>
        have hlen : ∀ fb ∈ FALLBACK_SETS mode, (fb.take 6).length = 6 := by
          cases mode <;> decide
        obtain ⟨h1, h2, h3⟩ := genFallbacks_ok dict common mode (FALLBACK_SETS mode) hlen r hfb
        exact ⟨h1, h2, .inl h3⟩
      | none =>
        refine ⟨rfl, ?_, .inr rfl⟩
        show ("planet".data).length = 6
        decide

/-- C2 (amended): for every dictionary, common-word set, mode and draw oracle,
`generateRound` returns six letters whose `validWords` is exactly the set of
dictionary words of length 3–6 buildable (multiset containment) from those
letters; the attempt-loop and per-mode fallback paths also guarantee
`validWords` of size at least the mode's minimum (easy 15, medium 12, hard 8),
but the last-resort hard-coded `planet` fallback is returned with no further
validation and is exempt from that bound. -/
theorem c2_generateRound_validity (dict common : List Str) (mode : Mode) (draw : Nat → Fin 6 → Char) :
    (generateRound dict common mode draw).letters.length = 6 ∧
    (∀ w, w ∈ (generateRound dict common mode draw).validWords ↔
      w ∈ dict ∧ 3 ≤ w.length ∧ w.length ≤ 6 ∧
        ∀ c, w.count c ≤ (generateRound dict common mode draw).letters.count c) ∧
    ((MODE_RULES mode).minTotalValid ≤ (generateRound dict common mode draw).validWords.length ∨
      (generateRound dict common mode draw).letters = "planet".data) := by
  obtain ⟨h1, h2, h3⟩ := generateRound_paths dict common mode draw
  refine ⟨h2, fun w => ?_, h3⟩
  rw [h1, mem_findValidWordsForLetters, h2]

set_option maxRecDepth 100000 in
set_option maxHeartbeats 1600000 in
/-- C2 counterexample: with an empty dictionary (and any common-word set) the
generator returns the unvalidated `planet` fallback whose `validWords` is
empty — strictly below the easy mode's minimum of 15, refuting the claim that
every returned letter set yields at least the mode's minimum. -/
theorem c2_counterexample :
    (generateRound [] [] Mode.easy (fun _ _ => 'q')).validWords.length <
      (MODE_RULES Mode.easy).minTotalValid := by
  decide

/-- A player found by id has that id. -/
theorem find?_id_eq {ps : List Player} {pid : String} {p : Player}
    (h : ps.find? (fun q => q.id = pid) = some p) : p.id = pid := by
  have := List.find?_some h
  simpa using this

/-- A player found by reconnect token has that token. -/
theorem find?_token_eq {ps : List Player} {token : String} {p : Player}
    (h : ps.find? (fun q => q.reconnectToken = token) = some p) : p.reconnectToken = token := by
  have := List.find?_some h
  simpa using this

/-- Updating the first player matching `pred` with a `pred`-preserving
function commutes with `find? pred`. -/
theorem find?_updateFirstBy {pred : Player → Bool} {f : Player → Player} {ps : List Player}
    (hf : ∀ p, pred p = true → pred (f p) = true) :
    (updateFirstBy pred f ps).find? pred = (ps.find? pred).map f := by
  induction ps with
  | nil => rfl
  | cons p rest ih =>
    by_cases h : pred p = true
    · simp [updateFirstBy, h, List.find?_cons_of_pos, hf p h]
    · have h' : pred p = false := by simpa using h
      simp [updateFirstBy, h', List.find?_cons_of_neg, ih]

/-- A pointwise property survives `updateFirstBy` when the update preserves
it on matching players. -/
theorem updateFirstBy_forall {I : Player → Prop} {pred : Player → Bool} {f : Player → Player}
    {ps : List Player} (h1 : ∀ p ∈ ps, I p) (h2 : ∀ p ∈ ps, pred p = true → I (f p)) :
    ∀ q ∈ updateFirstBy pred f ps, I q := by
  induction ps with
  | nil => intro q hq; cases hq
  | cons p rest ih =>
    intro q hq
    by_cases h : pred p = true
    · rw [updateFirstBy, if_pos h] at hq
      rcases List.mem_cons.mp hq with rfl | hq'
      · exact h2 p (List.mem_cons_self _ _) h
      · exact h1 q (List.mem_cons_of_mem _ hq')
    · rw [updateFirstBy, if_neg h] at hq
      rcases List.mem_cons.mp hq with rfl | hq'
      · exact h1 q (List.mem_cons_self _ _)
      · exact ih (fun r hr => h1 r (List.mem_cons_of_mem _ hr))
          (fun r hr hpr => h2 r (List.mem_cons_of_mem _ hr) hpr) q hq'

/-- A submission to a room that is not `playing` changes nothing and is never
accepted: it yields `ROUND_NOT_ACTIVE` (or `NOT_IN_ROOM`). -/
theorem submitWord_not_playing (room : Room) (pid : String) (raw : Str) (now : Nat)
    (hstatus : room.status ≠ .playing) :
    (submitWord room pid raw now).1 = room ∧
      ∀ res, (submitWord room pid raw now).2 = .ok res →
        res.ok = false ∧ res.errorCode = some .ROUND_NOT_ACTIVE := by
  unfold submitWord
  cases hfind : room.players.find? (fun q => q.id = pid) with
  | none => exact ⟨rfl, fun res hres => by cases hres⟩
  | some p =>
    dsimp only
    rw [if_pos hstatus]
    exact ⟨rfl, fun res hres => by cases hres; exact ⟨rfl, rfl⟩⟩

/-- The success path of `submitWord`, characterised: under the in-order checks
of the pipeline the persisted room is `successRoom` and the payload carries
`scoreForWord` points. -/
theorem submitWord_success (room : Room) (pid : String) (raw : Str) (now : Nat) (p : Player)
    (hfind : room.players.find? (fun q => q.id = pid) = some p)
    (hstatus : room.status = .playing)
    (hexp : hasRoundExpired room now = false)
    (hrate : (p.submitTimestamps.filter (fun t => now - t ≤ RATE_WINDOW_MS)).length < RATE_LIMIT_COUNT)
    (hlen : 3 ≤ (normalizeWord raw).length)
    (hbuild : canBuildFromLetters (normalizeWord raw) room.letters = true)
    (hvalid : room.allValidWords.contains (normalizeWord raw) = true)
    (hdup : p.usedWords.contains (normalizeWord raw) = false) :
    submitWord room pid raw now =
      (successRoom room pid (normalizeWord raw) now p,
        .ok { ok := true, word := normalizeWord raw,
              points := some (scoreForWord (normalizeWord raw).length), errorCode := none,
              viewStatus := (successRoom room pid (normalizeWord raw) now p).status,
              exposedValidWords :=
                if (successRoom room pid (normalizeWord raw) now p).lastEndReason.isSome then
                  some (sortWords (successRoom room pid (normalizeWord raw) now p).allValidWords)
                else none,
              endReason := (successRoom room pid (normalizeWord raw) now p).lastEndReason }) := by
  unfold submitWord
  rw [hfind]
  dsimp only
  rw [if_neg (by simp [hstatus])]
  rw [if_neg (by simp [hexp])]
  rw [if_neg (Nat.not_le.mpr hrate)]
  rw [if_neg (Nat.not_lt.mpr hlen)]
  have hvalid' : normalizeWord raw ∈ room.allValidWords := by simpa using hvalid
  have hdup' : normalizeWord raw ∉ p.usedWords := by simpa using hdup
  rw [if_neg (by simp [hbuild])]
  rw [if_neg (by simp [hvalid'])]
  rw [if_neg (by simp [hdup'])]
  rfl

/-- The duplicate check of `submitWord`: a word already in the player's
`usedWords` is rejected with `ALREADY_USED` and nothing is persisted. -/
theorem submitWord_already_used (room : Room) (pid : String) (raw : Str) (now : Nat) (p : Player)
    (hfind : room.players.find? (fun q => q.id = pid) = some p)
    (hstatus : room.status = .playing)
    (hexp : hasRoundExpired room now = false)
    (hrate : (p.submitTimestamps.filter (fun t => now - t ≤ RATE_WINDOW_MS)).length < RATE_LIMIT_COUNT)
    (hlen : 3 ≤ (normalizeWord raw).length)
    (hbuild : canBuildFromLetters (normalizeWord raw) room.letters = true)
    (hvalid : room.allValidWords.contains (normalizeWord raw) = true)
    (hdup : p.usedWords.contains (normalizeWord raw) = true) :
    submitWord room pid raw now =
      (room, .ok { ok := false, word := normalizeWord raw, points := none,
                   errorCode := some .ALREADY_USED, viewStatus := room.status,
                   exposedValidWords := none, endReason := none }) := by
  unfold submitWord
  rw [hfind]
  dsimp only
  rw [if_neg (by simp [hstatus])]
  rw [if_neg (by simp [hexp])]
  rw [if_neg (Nat.not_le.mpr hrate)]
  rw [if_neg (Nat.not_lt.mpr hlen)]
  have hvalid' : normalizeWord raw ∈ room.allValidWords := by simpa using hvalid
  rw [if_neg (by simp [hbuild])]
  rw [if_neg (by simp [hvalid'])]
  rw [if_pos (by simpa using hdup)]

/-- The submitted word always lands in the updated `foundGlobalWords`. -/
theorem mem_addFound (found : List Str) (word : Str) : word ∈ addFound found word := by
  unfold addFound
  split
  · rename_i h
    simpa using h
  · exact List.mem_append_right _ (List.mem_singleton.mpr rfl)

/-- Field equations of `successRoom`: ending the round touches only
status/reason/grace fields. -/
theorem successRoom_fields (room : Room) (pid : String) (word : Str) (now : Nat) (p : Player) :
    (successRoom room pid word now p).players =
        updateFirstBy (fun q => q.id = pid) (fun _ => successPlayer p word now) room.players ∧
      (successRoom room pid word now p).letters = room.letters ∧
      (successRoom room pid word now p).allValidWords = room.allValidWords ∧
      (successRoom room pid word now p).foundGlobalWords = addFound room.foundGlobalWords word := by
  refine ⟨?_, ?_, ?_, ?_⟩ <;>
    (unfold successRoom; dsimp only; split) <;> rfl

/-- When the freshly covered solution set condition holds, `successRoom` is
the `all_words_found` terminal state. -/
theorem successRoom_finished (room : Room) (pid : String) (word : Str) (now : Nat) (p : Player)
    (hne : room.allValidWords ≠ [])
    (hcover : room.allValidWords.length ≤ (addFound room.foundGlobalWords word).length) :
    (successRoom room pid word now p).status = .finished ∧
      (successRoom room pid word now p).lastEndReason = some .all_words_found := by
  have hpos : 0 < room.allValidWords.length := List.length_pos.mpr hne
  unfold successRoom
  dsimp only
  rw [if_pos ⟨hpos, hcover⟩]
  exact ⟨rfl, rfl⟩

/-- C3: the points for a word of length n are 1 (n ≤ 3), 2 (n = 4), 4 (n = 5)
and 7 (n ≥ 6); and a successful submission appends the
`{text, points, timestamp}` entry to the player's words, pushes the word onto
`usedWords` and into `foundGlobalWords`, adds exactly those points to the
score, and replaces `longestWord` only when the new word is strictly longer. -/
theorem c3_scoring_and_success_effects :
    (∀ n, scoreForWord n = if n ≤ 3 then 1 else if n = 4 then 2 else if n = 5 then 4 else 7) ∧
    ∀ (room : Room) (pid : String) (raw : Str) (now : Nat) (p : Player),
      room.players.find? (fun q => q.id = pid) = some p →
      room.status = .playing →
      hasRoundExpired room now = false →
      (p.submitTimestamps.filter (fun t => now - t ≤ RATE_WINDOW_MS)).length < RATE_LIMIT_COUNT →
      3 ≤ (normalizeWord raw).length →
      canBuildFromLetters (normalizeWord raw) room.letters = true →
      room.allValidWords.contains (normalizeWord raw) = true →
      p.usedWords.contains (normalizeWord raw) = false →
      ∃ res, (submitWord room pid raw now).2 = .ok res ∧ res.ok = true ∧
        res.points = some (scoreForWord (normalizeWord raw).length) ∧
        (submitWord room pid raw now).1.players =
          updateFirstBy (fun q => q.id = pid)
            (fun _ => successPlayer p (normalizeWord raw) now) room.players ∧
        (successPlayer p (normalizeWord raw) now).words =
          p.words ++ [{ text := normalizeWord raw,
                        points := scoreForWord (normalizeWord raw).length, timestamp := now }] ∧
        (successPlayer p (normalizeWord raw) now).usedWords = p.usedWords ++ [normalizeWord raw] ∧
        (successPlayer p (normalizeWord raw) now).score =
          p.score + scoreForWord (normalizeWord raw).length ∧
        (successPlayer p (normalizeWord raw) now).longestWord =
          (if p.longestWord.length < (normalizeWord raw).length then normalizeWord raw
            else p.longestWord) ∧
        normalizeWord raw ∈ (submitWord room pid raw now).1.foundGlobalWords := by
  constructor
  · intro n
    rfl
  · intro room pid raw now p hfind hstatus hexp hrate hlen hbuild hvalid hdup
    rw [submitWord_success room pid raw now p hfind hstatus hexp hrate hlen hbuild hvalid hdup]
    obtain ⟨hplayers, _, _, hfound⟩ := successRoom_fields room pid (normalizeWord raw) now p
    refine ⟨_, rfl, rfl, rfl, hplayers, rfl, rfl, rfl, rfl, ?_⟩
    rw [hfound]
    exact mem_addFound _ _

/-- Witness for C3: in the fixture room, `alice` submits `cat` and is awarded
`scoreForWord 3 = 1` with all the success-path effects. -/
theorem c3_witness :
    ∃ res, (submitWord roomPlaying "p1" ("cat".data) 10).2 = .ok res ∧ res.ok = true ∧
      res.points = some (scoreForWord (normalizeWord "cat".data).length) ∧
      (submitWord roomPlaying "p1" ("cat".data) 10).1.players =
        updateFirstBy (fun q => q.id = "p1")
          (fun _ => successPlayer pAlice (normalizeWord "cat".data) 10) roomPlaying.players ∧
      (successPlayer pAlice (normalizeWord "cat".data) 10).words =
        pAlice.words ++ [{ text := normalizeWord "cat".data,
                           points := scoreForWord (normalizeWord "cat".data).length, timestamp := 10 }] ∧
      (successPlayer pAlice (normalizeWord "cat".data) 10).usedWords =
        pAlice.usedWords ++ [normalizeWord "cat".data] ∧
      (successPlayer pAlice (normalizeWord "cat".data) 10).score =
        pAlice.score + scoreForWord (normalizeWord "cat".data).length ∧
      (successPlayer pAlice (normalizeWord "cat".data) 10).longestWord =
        (if pAlice.longestWord.length < (normalizeWord "cat".data).length then normalizeWord "cat".data
          else pAlice.longestWord) ∧
      normalizeWord "cat".data ∈ (submitWord roomPlaying "p1" ("cat".data) 10).1.foundGlobalWords :=
  c3_scoring_and_success_effects.2 roomPlaying "p1" ("cat".data) 10 pAlice (by decide) (by decide)
    (by decide) (by decide) (by decide) (by decide) (by decide) (by decide)

/-- C4: when a successful submission makes `foundGlobalWords` cover the
non-empty `allValidWords`, the room is persisted as `finished` with reason
`all_words_found`, and no further submission to that room is accepted. -/
theorem c4_all_words_found_terminal (room : Room) (pid : String) (raw : Str) (now : Nat) (p : Player)
    (hfind : room.players.find? (fun q => q.id = pid) = some p)
    (hstatus : room.status = .playing)
    (hexp : hasRoundExpired room now = false)
    (hrate : (p.submitTimestamps.filter (fun t => now - t ≤ RATE_WINDOW_MS)).length < RATE_LIMIT_COUNT)
    (hlen : 3 ≤ (normalizeWord raw).length)
    (hbuild : canBuildFromLetters (normalizeWord raw) room.letters = true)
    (hvalid : room.allValidWords.contains (normalizeWord raw) = true)
    (hdup : p.usedWords.contains (normalizeWord raw) = false)
    (hnodup : room.allValidWords.Nodup)
    (hne : room.allValidWords ≠ [])
    (hcover : ∀ w ∈ room.allValidWords, w ∈ addFound room.foundGlobalWords (normalizeWord raw)) :
    (submitWord room pid raw now).1.status = .finished ∧
      (submitWord room pid raw now).1.lastEndReason = some .all_words_found ∧
      ∀ (pid2 : String) (raw2 : Str) (now2 : Nat),
        ¬∃ res, (submitWord (submitWord room pid raw now).1 pid2 raw2 now2).2 = .ok res ∧
          res.ok = true := by
  rw [submitWord_success room pid raw now p hfind hstatus hexp hrate hlen hbuild hvalid hdup]
  have hlel : room.allValidWords.length ≤ (addFound room.foundGlobalWords (normalizeWord raw)).length :=
    (hnodup.subperm hcover).length_le
  obtain ⟨hst, hreason⟩ := successRoom_finished room pid (normalizeWord raw) now p hne hlel
  refine ⟨hst, hreason, ?_⟩
  intro pid2 raw2 now2 ⟨res, hres, hok⟩
  have hnp : (successRoom room pid (normalizeWord raw) now p).status ≠ RoomStatus.playing := by
    rw [hst]
    exact fun h => by cases h
  obtain ⟨-, hres2⟩ := submitWord_not_playing (successRoom room pid (normalizeWord raw) now p)
    pid2 raw2 now2 hnp
  have := (hres2 res hres).1
  rw [hok] at this
  cases this

/-- Witness for C4: in the one-word fixture room, submitting `cat` covers the
whole solution set and finishes the round. -/
theorem c4_witness :
    (submitWord roomOneWord "p1" ("cat".data) 10).1.status = .finished ∧
      (submitWord roomOneWord "p1" ("cat".data) 10).1.lastEndReason = some .all_words_found ∧
      ∀ (pid2 : String) (raw2 : Str) (now2 : Nat),
        ¬∃ res, (submitWord (submitWord roomOneWord "p1" ("cat".data) 10).1 pid2 raw2 now2).2 = .ok res ∧
          res.ok = true :=
  c4_all_words_found_terminal roomOneWord "p1" ("cat".data) 10 pAlice (by decide) (by decide)
    (by decide) (by decide) (by decide) (by decide) (by decide) (by decide) (by decide) (by decide)
    (by decide)

/-- C5 failing input: in the fixture room the player's stored submission log
is empty, a too-short submission fails normally (`TOO_SHORT`, not
`RATE_LIMIT`) — and the persisted room is **unchanged**, so the attempt's
timestamp was not recorded: `submitWordSession` pushes the timestamp only
in memory and never calls `saveRoom` on the validation-failure paths, so
failed attempts do not consume rate-limit budget for later calls. -/
theorem c5_failing_input :
    submitErr (submitWord roomPlaying "p1" ("ab".data) 10).2 = some .TOO_SHORT ∧
      (submitWord roomPlaying "p1" ("ab".data) 10).1 = roomPlaying := by
  exact ⟨by decide, by decide⟩

/-- C6: a second submission of the same word by the same player — while the
round is still running and not rate-limited — is rejected with `ALREADY_USED`
and persists nothing: the stored room (hence the player's score, words,
usedWords and longestWord) is exactly the one persisted by the first,
successful submission. -/
theorem c6_duplicate_submission (room : Room) (pid : String) (raw : Str) (now now2 : Nat) (p : Player)
    (hfind : room.players.find? (fun q => q.id = pid) = some p)
    (hstatus : room.status = .playing)
    (hexp : hasRoundExpired room now = false)
    (hrate : (p.submitTimestamps.filter (fun t => now - t ≤ RATE_WINDOW_MS)).length < RATE_LIMIT_COUNT)
    (hlen : 3 ≤ (normalizeWord raw).length)
    (hbuild : canBuildFromLetters (normalizeWord raw) room.letters = true)
    (hvalid : room.allValidWords.contains (normalizeWord raw) = true)
    (hdup : p.usedWords.contains (normalizeWord raw) = false)
    (hstill : (submitWord room pid raw now).1.status = .playing)
    (hexp2 : hasRoundExpired (submitWord room pid raw now).1 now2 = false)
    (hrate2 : ((successPlayer p (normalizeWord raw) now).submitTimestamps.filter
        (fun t => now2 - t ≤ RATE_WINDOW_MS)).length < RATE_LIMIT_COUNT) :
    (submitWord (submitWord room pid raw now).1 pid raw now2).1 = (submitWord room pid raw now).1 ∧
      ∃ res, (submitWord (submitWord room pid raw now).1 pid raw now2).2 = .ok res ∧
        res.ok = false ∧ res.errorCode = some .ALREADY_USED := by
  have hids : p.id = pid := find?_id_eq hfind
  have hsub := submitWord_success room pid raw now p hfind hstatus hexp hrate hlen hbuild hvalid hdup
  have hfst : (submitWord room pid raw now).1 = successRoom room pid (normalizeWord raw) now p := by
    rw [hsub]
  obtain ⟨hplayers, hletters, hall, -⟩ := successRoom_fields room pid (normalizeWord raw) now p
  have hfind2 : (submitWord room pid raw now).1.players.find? (fun q => q.id = pid) =
      some (successPlayer p (normalizeWord raw) now) := by
    rw [hfst, hplayers, find?_updateFirstBy (fun q hq => ?_), hfind]
    · rfl
    · have : (successPlayer p (normalizeWord raw) now).id = p.id := rfl
      simp [this, hids]
  have hdup2 : (successPlayer p (normalizeWord raw) now).usedWords.contains (normalizeWord raw) = true := by
    have : (successPlayer p (normalizeWord raw) now).usedWords = p.usedWords ++ [normalizeWord raw] := rfl
    simp [this]
  have hrate2' : ((successPlayer p (normalizeWord raw) now).submitTimestamps.filter
      (fun t => now2 - t ≤ RATE_WINDOW_MS)).length < RATE_LIMIT_COUNT := hrate2
  have hbuild2 : canBuildFromLetters (normalizeWord raw) (submitWord room pid raw now).1.letters = true := by
    rw [hfst, hletters]
    exact hbuild
  have hvalid2 : (submitWord room pid raw now).1.allValidWords.contains (normalizeWord raw) = true := by
    rw [hfst, hall]
    exact hvalid
  have := submitWord_already_used (submitWord room pid raw now).1 pid raw now2
    (successPlayer p (normalizeWord raw) now) hfind2 hstill hexp2 hrate2' hlen hbuild2 hvalid2 hdup2
  rw [this]
  exact ⟨rfl, _, rfl, rfl, rfl⟩

/-- Witness for C6: `alice` scores `cat` at instant 10, then submits `cat`
again at instant 20 and gets `ALREADY_USED` with the stored room unchanged. -/
theorem c6_witness :
    (submitWord (submitWord roomPlaying "p1" ("cat".data) 10).1 "p1" ("cat".data) 20).1 =
        (submitWord roomPlaying "p1" ("cat".data) 10).1 ∧
      ∃ res, (submitWord (submitWord roomPlaying "p1" ("cat".data) 10).1 "p1" ("cat".data) 20).2 =
          .ok res ∧ res.ok = false ∧ res.errorCode = some .ALREADY_USED :=
  c6_duplicate_submission roomPlaying "p1" ("cat".data) 10 20 pAlice (by decide) (by decide)
    (by decide) (by decide) (by decide) (by decide) (by decide) (by decide) (by decide) (by decide)
    (by decide)

/-- C7: once `startTime + durationSec` seconds have passed, the state query
never returns a `playing` view — it forces the `time_up` transition into the
persisted room first — and the submit path does the same before validating,
answering `ROUND_NOT_ACTIVE` with a `finished` room snapshot. -/
theorem c7_lazy_expiry (room : Room) (pid : String) (tok : Option String) (raw : Str)
    (now s : Nat)
    (hstart : room.startTime = some s)
    (hdeadline : s + room.durationSec * 1000 ≤ now) :
    (∀ view, (getRoomState room pid tok now).2 = .ok view →
      view.status ≠ .playing ∧
      (room.status = .playing →
        (getRoomState room pid tok now).1.status = .finished ∧
        (getRoomState room pid tok now).1.lastEndReason = some .time_up)) ∧
    (room.status = .playing →
      ∀ p, room.players.find? (fun q => q.id = pid) = some p →
        (submitWord room pid raw now).1.status = .finished ∧
        (submitWord room pid raw now).1.lastEndReason = some .time_up ∧
        ∃ res, (submitWord room pid raw now).2 = .ok res ∧ res.ok = false ∧
          res.errorCode = some .ROUND_NOT_ACTIVE ∧ res.viewStatus = .finished) := by
  have hexpired : room.status = .playing → hasRoundExpired room now = true := by
    intro hp
    unfold hasRoundExpired
    rw [hstart]
    simp [hp, hdeadline]
  constructor
  · intro view hview
    unfold getRoomState at hview
    by_cases hpid : pid = ""
    · rw [if_pos hpid] at hview
      cases hview
    · rw [if_neg hpid] at hview
      dsimp only at hview
      rcases hyou : (match room.players.find? (fun p => p.id = pid) with
        | some p => some p
        | none => tok.bind fun token => room.players.find? fun p => p.reconnectToken = token) with
        _ | you
      · rw [hyou] at hview
        cases hview
      · rw [hyou] at hview
        by_cases hp : room.status = .playing
        · rw [if_pos ⟨hp, hexpired hp⟩] at hview
          cases hview
          constructor
          · intro h
            cases h
          · intro _
            unfold getRoomState
            rw [if_neg hpid]
            dsimp only
            rw [hyou, if_pos ⟨hp, hexpired hp⟩]
            exact ⟨rfl, rfl⟩
        · have hcond : ¬(room.status = RoomStatus.playing ∧ hasRoundExpired room now = true) :=
            fun hh => hp hh.1
          rw [if_neg hcond] at hview
          cases hview
          exact ⟨hp, fun hh => absurd hh hp⟩
  · intro hp p hfind
    unfold submitWord
    rw [hfind]
    dsimp only
    rw [if_neg (by simp [hp])]
    rw [if_pos (hexpired hp)]
    exact ⟨rfl, rfl, _, rfl, rfl, rfl, rfl⟩

/-- Witness for C7: reading or submitting to the fixture room at instant
60000 (its deadline) forces `finished`/`time_up`. -/
theorem c7_witness :
    (∀ view, (getRoomState roomPlaying "p1" none 60000).2 = .ok view →
      view.status ≠ .playing ∧
      (roomPlaying.status = .playing →
        (getRoomState roomPlaying "p1" none 60000).1.status = .finished ∧
        (getRoomState roomPlaying "p1" none 60000).1.lastEndReason = some .time_up)) ∧
    (roomPlaying.status = .playing →
      ∀ p, roomPlaying.players.find? (fun q => q.id = "p1") = some p →
        (submitWord roomPlaying "p1" ("cat".data) 60000).1.status = .finished ∧
        (submitWord roomPlaying "p1" ("cat".data) 60000).1.lastEndReason = some .time_up ∧
        ∃ res, (submitWord roomPlaying "p1" ("cat".data) 60000).2 = .ok res ∧ res.ok = false ∧
          res.errorCode = some .ROUND_NOT_ACTIVE ∧ res.viewStatus = .finished) :=
  c7_lazy_expiry roomPlaying "p1" none ("cat".data) 60000 0 (by decide) (by decide)

/-- C8 failing input: `leaveRoomSession` on a playing two-player room marks
the leaver disconnected but sets **no** disconnect grace deadline and no end
reason — the room stays `playing` with `disconnectGraceEndsAt = none`, so the
claimed 15-second grace window (and the `disconnect_timeout` ending) cannot
happen through the session service. -/
theorem c8_leave_sets_no_grace :
    (leaveRoom roomPlaying "p2" 5).map
        (fun r => (r.status, r.disconnectGraceEndsAt, r.lastEndReason,
          (r.players.find? (fun q => q.id = "p2")).map Player.connected)) =
      some (RoomStatus.playing, none, none, some false) := by
  decide

/-- C9: a player who rejoins with the correct reconnect token while the room
is `playing` is rebound to the same identity — same id and token — with
score, words and longestWord untouched, and the room stays `playing`. -/
theorem c9_reconnect_preserves (room : Room) (rawName : Str) (token newId newToken : String)
    (now : Nat) (p0 : Player)
    (hname : sanitizeName rawName ≠ [])
    (hfind : room.players.find? (fun q => q.reconnectToken = token) = some p0)
    (hplaying : room.status = .playing) :
    ∃ you, (joinRoom room rawName (some token) newId newToken now).2 = .ok you ∧
      you.id = p0.id ∧ you.reconnectToken = p0.reconnectToken ∧
      you.score = p0.score ∧ you.words = p0.words ∧ you.longestWord = p0.longestWord ∧
      you.connected = true ∧
      (joinRoom room rawName (some token) newId newToken now).1.status = .playing ∧
      (joinRoom room rawName (some token) newId newToken now).1.players.find?
        (fun q => q.reconnectToken = token) = some you := by
  unfold joinRoom
  rw [if_neg hname]
  dsimp only
  rw [hfind]
  dsimp only
  have hcond : ¬(room.status ≠ RoomStatus.playing ∧ room.status ≠ RoomStatus.finished) :=
    fun hh => hh.1 hplaying
  rw [if_neg hcond]
  refine ⟨_, rfl, rfl, rfl, rfl, rfl, rfl, rfl, hplaying, ?_⟩
  dsimp only
  rw [@find?_updateFirstBy (fun q => decide (q.reconnectToken = token))
    (fun p => { p with connected := true, name := sanitizeName rawName }) room.players
    (fun q hq => hq), hfind]
  rfl

/-- Witness for C9: `bob` reconnects to the fixture room with token `t2`. -/
theorem c9_witness :
    ∃ you, (joinRoom roomPlaying ("bobby".data) (some "t2") "px" "tx" 30).2 = .ok you ∧
      you.id = pBob.id ∧ you.reconnectToken = pBob.reconnectToken ∧
      you.score = pBob.score ∧ you.words = pBob.words ∧ you.longestWord = pBob.longestWord ∧
      you.connected = true ∧
      (joinRoom roomPlaying ("bobby".data) (some "t2") "px" "tx" 30).1.status = .playing ∧
      (joinRoom roomPlaying ("bobby".data) (some "t2") "px" "tx" 30).1.players.find?
        (fun q => q.reconnectToken = "t2") = some you :=
  c9_reconnect_preserves roomPlaying ("bobby".data) "t2" "px" "tx" 30 pBob (by decide) (by decide)
    (by decide)

/-- `submitWord` either leaves the player list untouched or applies the
success update to a found player whose `usedWords` did not contain the word. -/
theorem submitWord_players_cases (room : Room) (pid : String) (raw : Str) (now : Nat) :
    (submitWord room pid raw now).1.players = room.players ∨
    ∃ p, room.players.find? (fun q => q.id = pid) = some p ∧
      p.usedWords.contains (normalizeWord raw) = false ∧
      (submitWord room pid raw now).1.players =
        updateFirstBy (fun q => q.id = pid) (fun _ => successPlayer p (normalizeWord raw) now)
          room.players := by
  unfold submitWord
  cases hfind : room.players.find? (fun q => q.id = pid) with
  | none => exact .inl rfl
  | some p =>
    dsimp only
    by_cases h1 : room.status ≠ RoomStatus.playing
    · rw [if_pos h1]
      exact .inl rfl
    · rw [if_neg h1]
      by_cases h2 : hasRoundExpired room now = true
      · rw [if_pos h2]
        exact .inl rfl
      · rw [if_neg h2]
        by_cases h3 : RATE_LIMIT_COUNT ≤
            (p.submitTimestamps.filter (fun t => now - t ≤ RATE_WINDOW_MS)).length
        · rw [if_pos h3]
          exact .inl rfl
        · rw [if_neg h3]
          by_cases h4 : (normalizeWord raw).length < 3
          · rw [if_pos h4]
            exact .inl rfl
          · rw [if_neg h4]
            by_cases h5 : (!canBuildFromLetters (normalizeWord raw) room.letters) = true
            · rw [if_pos h5]
              exact .inl rfl
            · rw [if_neg h5]
              by_cases h6 : (!room.allValidWords.contains (normalizeWord raw)) = true
              · rw [if_pos h6]
                exact .inl rfl
              · rw [if_neg h6]
                by_cases h7 : p.usedWords.contains (normalizeWord raw) = true
                · rw [if_pos h7]
                  exact .inl rfl
                · rw [if_neg h7]
                  right
                  refine ⟨p, rfl, Bool.eq_false_iff.mpr h7, ?_⟩
                  dsimp only
                  split
                  · rfl
                  · rfl

/-- `joinRoom` either leaves the player list untouched, reconnects the first
player matching some token, or appends a fresh player. -/
theorem joinRoom_players_cases (room : Room) (rawName : Str) (tok? : Option String)
    (nid ntok : String) (now : Nat) :
    (joinRoom room rawName tok? nid ntok now).1.players = room.players ∨
    (∃ token, (joinRoom room rawName tok? nid ntok now).1.players =
      updateFirstBy (fun p => p.reconnectToken = token)
        (fun p => { p with connected := true, name := sanitizeName rawName }) room.players) ∨
    (joinRoom room rawName tok? nid ntok now).1.players =
      room.players ++ [createPlayer (sanitizeName rawName) nid ntok] := by
  unfold joinRoom
  dsimp only
  split
  · exact .inl rfl
  · cases tok? with
    | none =>
      dsimp only
      split
      · exact .inl rfl
      · right; right
        dsimp only
        split
        · rfl
        · rfl
    | some token =>
      dsimp only
      cases hfind : room.players.find? (fun p => p.reconnectToken = token) with
      | some rp =>
        dsimp only
        right; left
        refine ⟨token, ?_⟩
        split
        · rfl
        · rfl
      | none =>
        dsimp only
        split
        · exact .inl rfl
        · right; right
          split
          · rfl
          · rfl

/-- `startRound` either leaves the player list untouched (on an error) or
resets every player's round state. -/
theorem startRound_players_cases (dict common : List Str) (draw : Nat → Fin 6 → Char)
    (room : Room) (pid : String) (now : Nat) :
    (startRound dict common draw room pid now).1.players = room.players ∨
    (startRound dict common draw room pid now).1.players =
      room.players.map (fun p => { p with
        score := 0, words := [], usedWords := [], longestWord := [], submitTimestamps := [] }) := by
  unfold startRound
  cases hfind : room.players.find? (fun p => p.id = pid) with
  | none => exact .inl rfl
  | some player =>
    dsimp only
    split
    · exact .inl rfl
    · split
      · exact .inl rfl
      · exact .inr rfl

/-- Helper: a surviving result of the delete-or-save decision is the saved
room. -/
theorem ite_none_eq_some {c : Prop} [Decidable c] {x r' : Room}
    (h : (if c then none else some x) = some r') : r' = x := by
  split at h
  · cases h
  · exact (Option.some.inj h).symm

/-- A room surviving `leaveRoom` keeps its player list up to marking the
leaver disconnected. -/
theorem leaveRoom_players_cases (room : Room) (pid : String) (now : Nat) :
    ∀ room', leaveRoom room pid now = some room' →
      room'.players = room.players ∨
      room'.players = updateFirstBy (fun p => p.id = pid)
        (fun p => { p with connected := false }) room.players := by
  intro room' h
  unfold leaveRoom at h
  cases hfind : room.players.find? (fun p => p.id = pid) with
  | none =>
    rw [hfind] at h
    cases h
    exact .inl rfl
  | some player =>
    rw [hfind] at h
    dsimp only at h
    have hr := ite_none_eq_some h
    subst hr
    right
    repeat' first
      | rfl
      | split

/-- The success update preserves the per-player invariant when the word was
not already used. -/
theorem playerInv_successPlayer (p : Player) (word : Str) (now : Nat)
    (hinv : playerInv p) (hdup : p.usedWords.contains word = false) :
    playerInv (successPlayer p word now) := by
  obtain ⟨hs, hn, hu⟩ := hinv
  have hw : word ∉ p.words.map (fun e => e.text) := by
    rw [← hu]
    simpa using hdup
  unfold playerInv successPlayer
  dsimp only
  refine ⟨?_, ?_, ?_⟩
  · simp [hs]
  · simp [List.nodup_append, hn, hw]
  · simp [hu]

/-- Every room reachable through the session operations satisfies the
bookkeeping invariant. -/
theorem reachable_roomInv : ∀ room, Reachable room → roomInv room := by
  intro room h
  induction h with
  | create rawName mode code pid tok now hname =>
    intro q hq
    rcases List.mem_singleton.mp hq with rfl
    exact ⟨rfl, List.nodup_nil, rfl⟩
  | join room rawName tok? nid ntok now room' you h hop ih =>
    have hr : room' = (joinRoom room rawName tok? nid ntok now).1 := by rw [hop]
    intro q hq
    rw [hr] at hq
    rcases joinRoom_players_cases room rawName tok? nid ntok now with hcase | ⟨token, hcase⟩ | hcase
    · rw [hcase] at hq
      exact ih q hq
    · rw [hcase] at hq
      refine updateFirstBy_forall ih (fun p hp _ => ?_) q hq
      exact ih p hp
    · rw [hcase] at hq
      rcases List.mem_append.mp hq with hq' | hq'
      · exact ih q hq'
      · rcases List.mem_singleton.mp hq' with rfl
        exact ⟨rfl, List.nodup_nil, rfl⟩
  | start dict common draw room pid now room' h hop ih =>
    have hr : room' = (startRound dict common draw room pid now).1 := by rw [hop]
    intro q hq
    rw [hr] at hq
    rcases startRound_players_cases dict common draw room pid now with hcase | hcase
    · rw [hcase] at hq
      exact ih q hq
    · rw [hcase] at hq
      rcases List.mem_map.mp hq with ⟨p, -, rfl⟩
      exact ⟨rfl, List.nodup_nil, rfl⟩
  | submit room pid raw now h ih =>
    rcases submitWord_players_cases room pid raw now with hcase | ⟨p, hfind, hdup, hcase⟩
    · intro q hq
      rw [hcase] at hq
      exact ih q hq
    · intro q hq
      rw [hcase] at hq
      refine updateFirstBy_forall ih (fun r hr _ => ?_) q hq
      exact playerInv_successPlayer p (normalizeWord raw) now
        (ih p (List.mem_of_find?_eq_some hfind)) hdup
  | leave room pid now room' h hop ih =>
    intro q hq
    rcases leaveRoom_players_cases room pid now room' hop with hcase | hcase
    · rw [hcase] at hq
      exact ih q hq
    · rw [hcase] at hq
      refine updateFirstBy_forall ih (fun p hp _ => ?_) q hq
      exact ih p hp

/-- C10: in every room reachable through create/join/start/submit/leave, each
player's score is the sum of the points of that player's word entries, and the
word list never holds two entries with the same text. -/
theorem c10_score_and_nodup (room : Room) (h : Reachable room) :
    ∀ p ∈ room.players, p.score = (p.words.map (fun e => e.points)).sum ∧
      (p.words.map (fun e => e.text)).Nodup := by
  intro p hp
  obtain ⟨h1, h2, -⟩ := reachable_roomInv room h p hp
  exact ⟨h1, h2⟩

/-- Witness for C10: a freshly created room is reachable and satisfies the
invariant. -/
theorem c10_witness :
    Reachable (createRoom ("alice".data) .medium "654321" "p9" "t9" 0) ∧
      ∀ p ∈ (createRoom ("alice".data) .medium "654321" "p9" "t9" 0).players,
        p.score = (p.words.map (fun e => e.points)).sum ∧
          (p.words.map (fun e => e.text)).Nodup :=
  ⟨Reachable.create _ _ _ _ _ _ (by decide),
    c10_score_and_nodup _ (Reachable.create _ _ _ _ _ _ (by decide))⟩

end Anagram
